import Mathlib

/-!
Verification of the CRM business-logic service layer
(contact-service, company-service, interaction-service, weekly-business-service).

The JavaScript services are shallowly embedded: JS strings become `String`,
JS arrays become `List`, JS `Map` becomes an association list with last-write-wins
lookup, the two backing stores (authoritative sheet reader/writer with row
handles, federated SQL reader without row handles) become explicit parameters or
explicit state records, and `async` failure becomes `Except` or an explicit
federated-result sum type.  Host-environment date parsing (`new Date(...)`)
is abstracted as a `String → Option Int` parameter (a parse that either yields a
millisecond timestamp or fails, mirroring `isNaN(date.getTime())`).
-/

/-! ## Generic JavaScript-semantics helpers -/

/-- Whitespace as trimmed by `String.prototype.trim` (restricted to the common
ASCII whitespace characters that occur in the data model). -/
def isJsSpace (c : Char) : Bool :=
  c = ' ' || c = '\t' || c = '\n' || c = '\r'

/-- Model of `String.prototype.trim` on the character list. -/
def jsTrimList (l : List Char) : List Char :=
  ((l.dropWhile isJsSpace).reverse.dropWhile isJsSpace).reverse

/-- Model of `String.prototype.trim`. -/
def jsTrim (s : String) : String :=
  String.mk (jsTrimList s.data)

/-- Model of `String.prototype.toLowerCase` (ASCII range; CJK characters are
unaffected by lower-casing, matching JS). -/
def jsToLower (s : String) : String :=
  String.mk (s.data.map Char.toLower)

/-- Substring test on character lists, modelling `String.prototype.includes`. -/
def listContainsSub (hay needle : List Char) : Bool :=
  match hay with
  | [] => needle.isEmpty
  | _ :: t => needle.isPrefixOf hay || listContainsSub t needle

/-- Model of `hay.includes(needle)`. -/
def jsIncludes (hay needle : String) : Bool :=
  listContainsSub hay.data needle.data

/-- Lookup in a JS `Map` built with `new Map(pairs)`: on duplicate keys the last
pair wins, `get` of an absent key is `undefined` (here `none`). -/
def jsMapGet {β : Type} (pairs : List (String × β)) (k : String) : Option β :=
  (pairs.reverse.find? (fun p => p.1 == k)).map (fun p => p.2)

/-- Key-membership in a JS `Map` built with `new Map(pairs)`, i.e. `map.has(k)`. -/
def jsMapHas {β : Type} (pairs : List (String × β)) (k : String) : Bool :=
  (jsMapGet pairs k).isSome

/-- Model of `a || b` for a possibly-undefined string `a` (`Map.get` result):
`undefined` and the empty string are falsy. -/
def jsOrStr (a : Option String) (b : String) : String :=
  match a with
  | some v => if v = "" then b else v
  | none => b

/-- Model of `Math.ceil(n / p)` for natural operands as computed in the
pagination envelopes (`Math.ceil(contacts.length / pageSize)`); for `0 < p`
this is exactly the ceiling of the rational quotient. -/
def jsCeilDiv (n p : Nat) : Nat :=
  (n + p - 1) / p

/-- A value returned by the federated (SQL) reader: either a JS array or some
defined non-array value (null, scalar, object). -/
inductive JsValue (α : Type) where
  | arr (xs : List α)
  | nonArray
deriving DecidableEq

/-- Outcome of awaiting the federated reader: the promise either resolves to a
value or rejects (the reader throws). -/
inductive FedResult (α : Type) where
  | ok (v : JsValue α)
  | err
deriving DecidableEq

/-- A federated fetch outcome that must not be used as a collection: the reader
raised, or it resolved to a non-sequence value. -/
def FedResult.invalid {α : Type} : FedResult α → Prop
  | .err => True
  | .ok .nonArray => True
  | .ok (.arr _) => False

instance {α : Type} (f : FedResult α) : Decidable f.invalid := by
  cases f with
  | err => exact .isTrue trivial
  | ok v => cases v with
    | arr xs => exact .isFalse (fun h => h)
    | nonArray => exact .isTrue trivial

/-! ## Identity Matcher: company-name normalization

Embeds `_normalizeCompanyName` (identical in company-service.js line 31 and
weekly-business-service.js / OpportunityService line 489):

    if (!name) return '';
    return name.toLowerCase().trim()
        .replace(/股份有限公司|有限公司|公司/g, '')
        .replace(/\(.*\)/g, '')
        .trim();
-/

/-- Global replacement of the alternation 股份有限公司|有限公司|公司 by the
empty string: at each position the regex engine tries the alternatives in
order (longest listed first) and on a match continues after it. -/
def stripCorpSuffixTokens : List Char → List Char
  | [] => []
  | '股' :: '份' :: '有' :: '限' :: '公' :: '司' :: rest => stripCorpSuffixTokens rest
  | '有' :: '限' :: '公' :: '司' :: rest => stripCorpSuffixTokens rest
  | '公' :: '司' :: rest => stripCorpSuffixTokens rest
  | c :: cs => c :: stripCorpSuffixTokens cs

/-- Global replacement of `/\(.*\)/g` by the empty string, with an explicit
step budget.  `.` does not match a newline, and `.*` is greedy, so one match
runs from an opening parenthesis to the last closing parenthesis occurring
before the next newline; the global scan then continues after the match.
Every step consumes at least one character, so a budget equal to the input
length never runs out. -/
def stripParensAux : Nat → List Char → List Char
  | 0, l => l
  | _ + 1, [] => []
  | fuel + 1, c :: cs =>
    if c = '(' then
      let line := cs.takeWhile (fun d => d ≠ '\n')
      if line.contains ')' then
        let afterLast := (line.reverse.takeWhile (fun d => d ≠ ')')).length
        stripParensAux fuel (cs.drop (line.length - afterLast))
      else
        c :: stripParensAux fuel cs
    else
      c :: stripParensAux fuel cs

/-- Global replacement of `/\(.*\)/g` by the empty string. -/
def stripParentheticals (l : List Char) : List Char :=
  stripParensAux l.length l

/-- Embedding of `_normalizeCompanyName` from company-service.js (the identical
helper also appears in the opportunity service). -/
def normalizeCompanyName (name : String) : String :=
  if name = "" then ""
  else
    String.mk (jsTrimList (stripParentheticals (stripCorpSuffixTokens
      (jsTrimList (name.data.map Char.toLower)))))

/-! ## Data model

Canonical record shapes as produced by the DTO normalizers of the two stores.
A record fetched from the authoritative sheet store carries a positive
`rowIndex`; `rowIndex = 0` models a missing/absent row handle (falsy in JS).
Absent string fields are modelled as the empty string (falsy in JS). -/

structure Company where
  companyId : String
  companyName : String
  county : String
  phone : String
  address : String
  introduction : String
  companyType : String
  customerStage : String
  engagementRating : String
  createdTime : String
  rowIndex : Nat
deriving DecidableEq, Repr

structure Contact where
  contactId : String
  sourceId : String
  name : String
  companyId : String
  department : String
  position : String
  mobile : String
  phone : String
  email : String
  companyName : String
  linkId : String
  rowIndex : Nat
deriving DecidableEq, Repr

structure PotentialContact where
  name : String
  company : String
  notes : String
  status : String
  driveLink : String
  position : String
  createdTime : String
  rowIndex : Nat
deriving DecidableEq, Repr

structure Opportunity where
  opportunityId : String
  opportunityName : String
  customerCompany : String
  mainContact : String
  parentOpportunityId : String
  mainContactJobTitle : String
  currentStage : String
  currentStatus : String
  rowIndex : Nat
deriving DecidableEq, Repr

structure Interaction where
  interactionId : String
  opportunityId : String
  companyId : String
  eventType : String
  eventTitle : String
  contentSummary : String
  recorder : String
  interactionTime : String
  createdTime : String
  opportunityName : String
deriving DecidableEq, Repr

structure EventLog where
  eventLogId : String
  opportunityId : String
  companyId : String
  createdTime : String
deriving DecidableEq, Repr

/-- Raw row shape returned by the federated weekly-business SQL reader
(weekly-business-sql-reader.js); `plan` and `division` are the two columns the
service DTO mapper reads defensively with `?? ''`. -/
structure SqlRow where
  record_id : String
  week_id : String
  entry_date : String
  category : String
  topic : String
  participants : String
  summary_content : String
  todo_items : String
  created_time : String
  updated_time : String
  created_by : String
  plan : Option String
  division : Option String
deriving DecidableEq, Repr

/-- Canonical weekly-business entry DTO.  `dateKey` models the legacy 日期 key
which both DTO mappers mirror from the entry date and which the service uses
for sorting and week filtering. -/
structure WeeklyEntry where
  recordId : String
  weekId : String
  entryDate : String
  dateKey : String
  category : String
  topic : String
  participants : String
  summaryContent : String
  todoItems : String
  createdTime : String
  updatedTime : String
  creator : String
  plan : String
  division : String
  rowIndex : Nat
deriving DecidableEq, Repr

/-! ## Pagination envelope (shared shape of the per-view pipelines) -/

structure Pagination where
  current : Nat
  total : Nat
  totalItems : Nat
  hasNext : Bool
  hasPrev : Bool
deriving DecidableEq, Repr

structure Envelope (α : Type) where
  data : List α
  pagination : Pagination
deriving DecidableEq, Repr

/-- The pagination block shared verbatim by `searchOfficialContacts`
(contact-service.js lines 465-479) and `searchInteractions`
(interaction-service.js lines 104-116):

    const startIndex = (page - 1) * pageSize;
    const paginated = results.slice(startIndex, startIndex + pageSize);
    return { data: paginated, pagination: { current: page,
      total: Math.ceil(results.length / pageSize), totalItems: results.length,
      hasNext: (startIndex + pageSize) < results.length, hasPrev: page > 1 } };
-/
def paginateList {α : Type} (results : List α) (page pageSize : Nat) : Envelope α :=
  let startIndex := (page - 1) * pageSize
  { data := (results.drop startIndex).take pageSize
    pagination :=
      { current := page
        total := jsCeilDiv results.length pageSize
        totalItems := results.length
        hasNext := decide (startIndex + pageSize < results.length)
        hasPrev := decide (1 < page) } }

/-! ## Contact service: official-contact search (contact-service.js v7.1.0)

`searchOfficialContacts(query, page)` reads the federated SQL contact reader
first, validates the result with `Array.isArray`, and on a rejected promise or
invalid shape falls back to the authoritative sheet reader; it then joins
company names, filters by the query and paginates. -/

/-- The in-memory join step: each contact is spread-cloned and gets a
`companyName` attached via the company-id map, with the raw `companyId` as
fallback for a dangling or falsy lookup (`companyNameMap.get(id) || id`). -/
def joinContactsWithCompanies (allContacts : List Contact) (allCompanies : List Company) :
    List Contact :=
  let companyNamePairs := allCompanies.map (fun c => (c.companyId, c.companyName))
  allContacts.map (fun contact =>
    { contact with companyName := jsOrStr (jsMapGet companyNamePairs contact.companyId) contact.companyId })

/-- The query filter of `searchOfficialContacts`: a falsy query keeps all
records; otherwise a case-insensitive substring match on name or joined
company name (each guarded by its own truthiness check). -/
def filterOfficialByQuery (q : String) (contacts : List Contact) : List Contact :=
  if q = "" then contacts
  else
    let searchTerm := jsToLower q
    contacts.filter (fun c =>
      (c.name != "" && jsIncludes (jsToLower c.name) searchTerm) ||
      (c.companyName != "" && jsIncludes (jsToLower c.companyName) searchTerm))

/-- The collection `searchOfficialContacts` operates on after the convergence
decision: the federated value when it is an array, the sheet collection after
any federated failure (a rejection, or the `Array.isArray` guard throwing). -/
def officialContactsSource (fed : FedResult Contact) (sheetContacts : List Contact) :
    List Contact :=
  match fed with
  | .ok (.arr xs) => xs
  | _ => sheetContacts

/-- The filtered (pre-pagination) result list of `searchOfficialContacts`. -/
def officialContactsFiltered (q : String) (fed : FedResult Contact)
    (sheetContacts : List Contact) (allCompanies : List Company) : List Contact :=
  filterOfficialByQuery q (joinContactsWithCompanies (officialContactsSource fed sheetContacts) allCompanies)

/-- Embedding of `ContactService.searchOfficialContacts` (lines 430-484).
`pageSize` stands for `config.PAGINATION.CONTACTS_PER_PAGE` (default 20). -/
def searchOfficialContacts (q : String) (page : Nat) (fed : FedResult Contact)
    (sheetContacts : List Contact) (allCompanies : List Company) (pageSize : Nat) :
    Envelope Contact :=
  paginateList (officialContactsFiltered q fed sheetContacts allCompanies) page pageSize

/-! ## Contact service: potential-contact listing and sorting -/

/-- The comparator of `getPotentialContacts` (contact-service.js lines 384-390):

    const dateA = new Date(a.createdTime); const dateB = new Date(b.createdTime);
    if (isNaN(dateB.getTime())) return -1;
    if (isNaN(dateA.getTime())) return 1;
    return dateB - dateA;
-/
def cmpPotentialCreatedDesc (parse : String → Option Int) (a b : PotentialContact) : Int :=
  match parse b.createdTime, parse a.createdTime with
  | none, _ => -1
  | some _, none => 1
  | some db, some da => db - da

/-- The descending sort of potential contacts.  `Array.prototype.sort` is
stable and the comparator induces a total preorder (see
`cmpPotentialCreatedDesc` lemmas below), so a stable insertion sort is an
exact model. -/
def sortPotentialDesc (parse : String → Option Int) (l : List PotentialContact) :
    List PotentialContact :=
  List.insertionSort (fun a b => cmpPotentialCreatedDesc parse a b ≤ 0) l

/-- Embedding of `ContactService.getPotentialContacts` (lines 376-402):
filter out fully empty rows, sort by creation time descending, then limit
(`limit > 0` guards the slice). -/
def getPotentialContacts (parse : String → Option Int) (limit : Nat)
    (contacts : List PotentialContact) : List PotentialContact :=
  let step1 := contacts.filter (fun c => c.name != "" || c.company != "")
  let step2 := sortPotentialDesc parse step1
  if limit > 0 then step2.take limit else step2

/-! ## Interaction service (interaction-service.js v6.1.0) -/

/-- The clone-and-join step of `searchInteractions` (lines 44-62): each
interaction is spread-cloned and `opportunityName` is set to the resolved
context name via sequential map lookups with Chinese-sentinel fallbacks. -/
def joinInteractions (interactions : List Interaction)
    (opportunities : List Opportunity) (companies : List Company) : List Interaction :=
  let oppPairs := opportunities.map (fun o => (o.opportunityId, o.opportunityName))
  let compPairs := companies.map (fun c => (c.companyId, c.companyName))
  interactions.map (fun item =>
    let contextName :=
      if item.opportunityId != "" && jsMapHas oppPairs item.opportunityId then
        (jsMapGet oppPairs item.opportunityId).getD ""
      else if item.companyId != "" && jsMapHas compPairs item.companyId then
        (jsMapGet compPairs item.companyId).getD ""
      else if item.opportunityId != "" then "未知機會"
      else if item.companyId != "" then "未知公司"
      else "未指定"
    { item with opportunityName := contextName })

/-- The query filter of `searchInteractions`: OR across content summary, event
title, resolved context name and recorder. -/
def filterInteractionsByQuery (q : String) (results : List Interaction) : List Interaction :=
  if q = "" then results
  else
    let searchTerm := jsToLower q
    results.filter (fun i =>
      (i.contentSummary != "" && jsIncludes (jsToLower i.contentSummary) searchTerm) ||
      (i.eventTitle != "" && jsIncludes (jsToLower i.eventTitle) searchTerm) ||
      (i.opportunityName != "" && jsIncludes (jsToLower i.opportunityName) searchTerm) ||
      (i.recorder != "" && jsIncludes (jsToLower i.recorder) searchTerm))

/-- The comparator of the interaction sort (lines 76-82), identical in shape to
the potential-contact comparator but keyed on `interactionTime`. -/
def cmpInteractionTimeDesc (parse : String → Option Int) (a b : Interaction) : Int :=
  match parse b.interactionTime, parse a.interactionTime with
  | none, _ => -1
  | some _, none => 1
  | some db, some da => db - da

/-- The descending interaction sort (stable, total preorder comparator). -/
def sortInteractionsDesc (parse : String → Option Int) (l : List Interaction) :
    List Interaction :=
  List.insertionSort (fun a b => cmpInteractionTimeDesc parse a b ≤ 0) l

/-- Embedding of `InteractionService.searchInteractions` (lines 31-122):
parallel raw fetch, clone-and-join, filter, sort, then either the
`fetchAll` envelope or pagination with `INTERACTIONS_PER_PAGE`. -/
def searchInteractions (parse : String → Option Int) (q : String) (page : Nat)
    (fetchAll : Bool) (interactions : List Interaction)
    (opportunities : List Opportunity) (companies : List Company) (pageSize : Nat) :
    Envelope Interaction :=
  let results := joinInteractions interactions opportunities companies
  let results := filterInteractionsByQuery q results
  let results := sortInteractionsDesc parse results
  if fetchAll then
    { data := results
      pagination :=
        { current := 1, total := 1, totalItems := results.length
          hasNext := false, hasPrev := false } }
  else
    paginateList results page pageSize

/-! ## Weekly-business service (weekly-business-service.js v7.0.10) -/

/-- Embedding of `WeeklyBusinessService._toServiceDTO` (lines 45-74): maps a
SQL snake_case row to the service DTO, mirroring the entry date under the
legacy 日期 key and defaulting the two columns absent from SQL with `?? ''`.
The SQL path never exposes a row handle, so `rowIndex` is 0 (absent). -/
def toServiceDTO (row : SqlRow) : WeeklyEntry :=
  { recordId := row.record_id
    weekId := row.week_id
    dateKey := row.entry_date
    summaryContent := row.summary_content
    creator := row.created_by
    entryDate := row.entry_date
    category := row.category
    topic := row.topic
    participants := row.participants
    todoItems := row.todo_items
    createdTime := row.created_time
    updatedTime := row.updated_time
    plan := row.plan.getD ""
    division := row.division.getD ""
    rowIndex := 0 }

/-- State of the authoritative weekly sheet reader: the backing rows plus its
per-collection cache.

Modelled from the spec: the sheet Reader and its cache are not part of the
service sources; spec sections 4.1/5/6 describe `getCollection()` as serving a
cached collection while fresh and reloading from the store otherwise, and
`invalidateCache(collectionKey)` as marking the whole collection stale. -/
structure WeeklySheetState where
  rows : List WeeklyEntry
  cacheValid : Bool
  cache : List WeeklyEntry
deriving DecidableEq, Repr

/-- Modelled from the spec: `weeklyBusinessReader.getAllEntries()` serves the
cache when fresh, otherwise loads the rows and refreshes the cache. -/
def weeklyReaderGetAllEntries (st : WeeklySheetState) :
    List WeeklyEntry × WeeklySheetState :=
  if st.cacheValid then (st.cache, st)
  else (st.rows, { st with cacheValid := true, cache := st.rows })

/-- Embedding of `WeeklyBusinessService._fetchWeeklyEntries` (lines 82-104):
with `forceSheet = false` and an injected repo, try the federated reader and
return its mapped rows when they form an array; a rejection (or the TypeError
thrown by `.map` on a non-array) is caught and falls back to the sheet
reader.  With `forceSheet = true`, or no repo injected, read the sheet. -/
def fetchWeeklyEntries (forceSheet : Bool) (repo : Option (FedResult SqlRow))
    (st : WeeklySheetState) : List WeeklyEntry × WeeklySheetState :=
  match forceSheet, repo with
  | false, some (.ok (.arr rows)) => (rows.map toServiceDTO, st)
  | false, some _ => weeklyReaderGetAllEntries st
  | false, none => weeklyReaderGetAllEntries st
  | true, _ => weeklyReaderGetAllEntries st

/-- Caller-supplied fields of a weekly-entry update (`data` in
`updateWeeklyBusinessEntry`); `none` marks a field the caller did not send. -/
structure WeeklyUpdate where
  date : Option String
  category : Option String
  topic : Option String
  participants : Option String
  summaryContent : Option String
  todoItems : Option String
  creator : Option String
deriving DecidableEq, Repr

/-- Modelled from the spec: the authoritative Writer updates the row at the
given handle by shallow overwrite of the caller-supplied fields (spec section
4.5); the date value is mirrored onto the legacy 日期 key by the write-side
normalizer (spec section 4.2). -/
def applyWeeklyUpdate (e : WeeklyEntry) (d : WeeklyUpdate) : WeeklyEntry :=
  { e with
    entryDate := d.date.getD e.entryDate
    dateKey := d.date.getD e.dateKey
    category := d.category.getD e.category
    topic := d.topic.getD e.topic
    participants := d.participants.getD e.participants
    summaryContent := d.summaryContent.getD e.summaryContent
    todoItems := d.todoItems.getD e.todoItems }

/-- Modelled from the spec: `weeklyBusinessWriter.updateEntryRow(rowIndex,
data, modifier)` performs a positional update of the addressed row in the
authoritative store. -/
def weeklyWriterUpdateEntryRow (st : WeeklySheetState) (rowIndex : Nat)
    (d : WeeklyUpdate) : WeeklySheetState :=
  { st with rows := st.rows.map (fun e => if e.rowIndex = rowIndex then applyWeeklyUpdate e d else e) }

/-- Embedding of `WeeklyBusinessService.updateWeeklyBusinessEntry` (lines
380-397): force the sheet path to obtain a row handle, look the record up by
id, then write through the Writer.  No cache invalidation happens on this
path. -/
def updateWeeklyBusinessEntry (st : WeeklySheetState) (recordId : String)
    (d : WeeklyUpdate) : Except String WeeklySheetState :=
  let fetched := fetchWeeklyEntries true none st
  match fetched.1.find? (fun e => e.recordId == recordId) with
  | none => .error ("找不到紀錄 ID: " ++ recordId)
  | some target => .ok (weeklyWriterUpdateEntryRow fetched.2 target.rowIndex d)

/-- The comparator of the weekly-entry date sort
(`getEntriesForWeek`, line 137):

    entries.sort((a, b) => new Date(b['日期']) - new Date(a['日期']));

When either date fails to parse the subtraction yields NaN, and the
`SortCompare` step of `Array.prototype.sort` treats a NaN comparator result
as +0 (the pair compares as equal). -/
def cmpWeeklyDateDesc (parse : String → Option Int) (a b : WeeklyEntry) : Int :=
  match parse b.dateKey, parse a.dateKey with
  | some db, some da => db - da
  | _, _ => 0

/-- The weekly-entry descending date sort, as a stable sort over the NaN-as-0
comparator. -/
def sortWeeklyEntriesDesc (parse : String → Option Int) (l : List WeeklyEntry) :
    List WeeklyEntry :=
  List.insertionSort (fun a b => cmpWeeklyDateDesc parse a b ≤ 0) l

/-! ## Contact service: writes (contact-service.js lines 598-663) -/

/-- State of the authoritative contact sheet reader (rows, per-collection
cache).  Modelled from the spec, like `WeeklySheetState`. -/
structure ContactsSheetState where
  rows : List Contact
  cacheValid : Bool
  cache : List Contact
deriving DecidableEq, Repr

/-- Modelled from the spec: `contactReader.getContactList()` serves the cache
when fresh, otherwise loads the rows and refreshes the cache. -/
def contactReaderGetContactList (st : ContactsSheetState) :
    List Contact × ContactsSheetState :=
  if st.cacheValid then (st.cache, st)
  else (st.rows, { st with cacheValid := true, cache := st.rows })

/-- Modelled from the spec: `contactReader.invalidateCache('contactList')`
marks the whole collection stale. -/
def contactReaderInvalidateCache (st : ContactsSheetState) : ContactsSheetState :=
  { st with cacheValid := false }

/-- Caller-supplied fields of an official-contact update; `none` marks a field
the caller did not send.  The logical `contactId` is not a content field and
is never part of an update payload. -/
structure ContactUpdate where
  name : Option String
  companyId : Option String
  department : Option String
  position : Option String
  mobile : Option String
  phone : Option String
  email : Option String
deriving DecidableEq, Repr

/-- Modelled from the spec: the Writer updates the addressed row by shallow
overwrite of the caller-supplied fields (spec sections 4.5 and 6). -/
def applyContactUpdate (c : Contact) (u : ContactUpdate) : Contact :=
  { c with
    name := u.name.getD c.name
    companyId := u.companyId.getD c.companyId
    department := u.department.getD c.department
    position := u.position.getD c.position
    mobile := u.mobile.getD c.mobile
    phone := u.phone.getD c.phone
    email := u.email.getD c.email }

/-- Modelled from the spec: `contactWriter.updateContactRow(rowIndex,
updateData, user)` performs a positional update in the authoritative store. -/
def contactWriterUpdateContactRow (st : ContactsSheetState) (rowIndex : Nat)
    (u : ContactUpdate) : ContactsSheetState :=
  { st with rows := st.rows.map (fun c => if c.rowIndex = rowIndex then applyContactUpdate c u else c) }

/-- Embedding of `ContactService.updateContact` (lines 598-623): scan the
reader collection for the logical id, fail on a missing record or a falsy row
handle, write through the Writer, then invalidate the collection cache before
returning. -/
def updateContact (st : ContactsSheetState) (contactId : String) (u : ContactUpdate) :
    Except String ContactsSheetState :=
  let fetched := contactReaderGetContactList st
  match fetched.1.find? (fun c => c.contactId == contactId) with
  | none => .error ("Contact ID not found: " ++ contactId)
  | some target =>
    if target.rowIndex = 0 then
      .error ("System Error: Missing rowIndex for Contact " ++ contactId)
    else
      .ok (contactReaderInvalidateCache (contactWriterUpdateContactRow fetched.2 target.rowIndex u))

/-- Caller-supplied fields of a potential-contact update; `none` marks a field
the caller did not send. -/
structure PotentialUpdate where
  name : Option String
  company : Option String
  notes : Option String
  status : Option String
  position : Option String
deriving DecidableEq, Repr

/-- The spread merge `{ ...target, ...updateData }` of
`updatePotentialContact`: shallow overwrite of every caller-supplied field. -/
def mergePotential (t : PotentialContact) (u : PotentialUpdate) : PotentialContact :=
  { t with
    name := u.name.getD t.name
    company := u.company.getD t.company
    notes := u.notes.getD t.notes
    status := u.status.getD t.status
    position := u.position.getD t.position }

/-- Embedding of `ContactService.updatePotentialContact` (lines 629-663),
returning the merged row content handed to the Writer
(`writePotentialContactRow` is a pure positional write).  `modifier` and
`today` stand for the modifying user and `new Date().toLocaleDateString()`.
When the caller sends a truthy `notes` value, the merged notes are the old
notes plus a newline plus a generated bracketed author/date marker and the new
content (no newline when the old notes are falsy). -/
def updatePotentialContact (contacts : List PotentialContact) (rowIndex : Nat)
    (u : PotentialUpdate) (modifier today : String) : Except String PotentialContact :=
  match contacts.find? (fun c => c.rowIndex == rowIndex) with
  | none => .error ("找不到潛在客戶 Row: " ++ toString rowIndex)
  | some target =>
    let mergedData := mergePotential target u
    let mergedData :=
      if u.notes.getD "" ≠ "" then
        let oldNotes := target.notes
        let newNoteEntry := "[" ++ modifier ++ " " ++ today ++ "] " ++ u.notes.getD ""
        { mergedData with notes := if oldNotes = "" then newNoteEntry else oldNotes ++ "\n" ++ newNoteEntry }
      else mergedData
    .ok mergedData

/-! ## Company service: createCompany (company-service.js lines 74-110) -/

/-- The user object handed to write operations; both name fields may be
absent or empty (falsy). -/
structure JsUser where
  displayName : Option String
  username : Option String
deriving DecidableEq, Repr

/-- The value of `user.displayName || user.username || user || 'System'`:
a non-empty name field, otherwise the (truthy) user object itself, otherwise
the literal System default. -/
inductive ModifierVal where
  | name (s : String)
  | rawUserObject
  | systemDefault
deriving DecidableEq, Repr

def modifierOf (user : Option JsUser) : ModifierVal :=
  match user with
  | some u =>
    if (u.displayName.getD "") ≠ "" then .name (u.displayName.getD "")
    else if (u.username.getD "") ≠ "" then .name (u.username.getD "")
    else .rawUserObject
  | none => .systemDefault

/-- Caller-supplied payload of `createCompany`; a `companyName` key inside the
payload overrides the explicit first argument because the spread
`{ companyName: companyName, ...companyData }` puts the payload last. -/
structure CompanyData where
  companyName : Option String
  county : Option String
  phone : Option String
  address : Option String
  introduction : Option String
  companyType : Option String
deriving DecidableEq, Repr

/-- The duplicate-hit result of `createCompany` (success with the existing
record and `existed: true`). -/
structure CreateCompanyResult where
  success : Bool
  id : String
  name : String
  message : String
  existed : Bool
  data : Option Company
deriving DecidableEq, Repr

/-- Outcome of `createCompany`: either the duplicate-hit result (no Writer
call), or the Writer is invoked with the merged payload. -/
inductive CreateCompanyOutcome where
  | existedHit (r : CreateCompanyResult)
  | writerCreate (dataToWrite : CompanyData) (modifier : ModifierVal)
deriving DecidableEq, Repr

/-- Embedding of `CompanyService.createCompany` (lines 74-110).  The second
component records whether `invalidateCache('companyList')` was called before
returning. -/
def createCompany (companies : List Company) (companyName : String)
    (companyData : CompanyData) (user : Option JsUser) :
    CreateCompanyOutcome × Bool :=
  let modifier := modifierOf user
  let normalizedTarget := normalizeCompanyName companyName
  match companies.find? (fun c => normalizeCompanyName c.companyName == normalizedTarget) with
  | some existing =>
    (.existedHit
      { success := true
        id := existing.companyId
        name := existing.companyName
        message := "公司已存在"
        existed := true
        data := some existing }, false)
  | none =>
    let dataToWrite := { companyData with companyName := some (companyData.companyName.getD companyName) }
    (.writerCreate dataToWrite modifier, true)

/-! ## Opportunity service: stage aggregation (weekly-business-service.js,
OpportunityService.getOpportunitiesByStage, lines 943-974) -/

/-- A configured stage from `systemConfig['機會階段']`: a stage key and a
display note. -/
structure StageDef where
  value : String
  note : String
deriving DecidableEq, Repr

/-- One stage group of the aggregation result. -/
structure StageGroup where
  name : String
  opportunities : List Opportunity
  count : Nat
deriving DecidableEq, Repr

/-- Property assignment on a JS object modelled as an insertion-ordered
association list: assigning an existing key overwrites in place, a new key is
appended. -/
def jsObjSet {β : Type} (m : List (String × β)) (k : String) (v : β) :
    List (String × β) :=
  if m.any (fun p => p.1 == k) then
    m.map (fun p => if p.1 == k then (k, v) else p)
  else m ++ [(k, v)]

/-- The empty group a configured stage starts with, named
`stage.note || stage.value`. -/
def initGroupOf (stage : StageDef) : StageGroup :=
  { name := if stage.note = "" then stage.value else stage.note
    opportunities := []
    count := 0 }

/-- The initialization loop: every configured stage gets an empty group. -/
def initStageGroups (stages : List StageDef) : List (String × StageGroup) :=
  stages.foldl (fun m stage => jsObjSet m stage.value (initGroupOf stage)) []

/-- The classification step for one opportunity: only in-progress (進行中)
records are classified, and only into a group whose key already exists. -/
def classifyOppByStage (m : List (String × StageGroup)) (opp : Opportunity) :
    List (String × StageGroup) :=
  if opp.currentStatus == "進行中" then
    if m.any (fun p => p.1 == opp.currentStage) then
      m.map (fun p =>
        if p.1 == opp.currentStage then
          (p.1, { p.2 with opportunities := p.2.opportunities ++ [opp], count := p.2.count + 1 })
        else p)
    else m
  else m

/-- Embedding of `OpportunityService.getOpportunitiesByStage`: initialize one
group per configured stage, then classify the in-progress opportunities. -/
def getOpportunitiesByStage (stages : List StageDef) (opportunities : List Opportunity) :
    List (String × StageGroup) :=
  opportunities.foldl classifyOppByStage (initStageGroups stages)

/-! ## Opportunity service: getOpportunityDetails (lines 535-659)

The aggregation reads every collection from the per-collection caches, joins
links with official contacts (each joined contact is spread-cloned), filters
and sorts child collections, resolves the main-contact job title, and then
assigns the resolved title onto the opportunity record obtained from the
opportunity cache (`opportunityInfo.mainContactJobTitle = mainContactJobTitle`,
line 637) without any copy.  To make that aliasing observable in a pure
embedding, the function returns the post-call content of the opportunity
cache next to the result: the first record matching the id is the very object
the service mutated. -/

structure OppContactLink where
  opportunityId : String
  contactId : String
  status : String
  linkId : String
deriving DecidableEq, Repr

structure OpportunityDetails where
  opportunityInfo : Opportunity
  interactions : List Interaction
  eventLogs : List EventLog
  linkedContacts : List Contact
  potentialContacts : List PotentialContact
  parentOpportunity : Option Opportunity
  childOpportunities : List Opportunity
deriving DecidableEq, Repr

/-- In-place update of the first list element satisfying `p`, modelling a
mutation of the object found by `Array.prototype.find`. -/
def updateFirst {α : Type} (p : α → Bool) (f : α → α) : List α → List α
  | [] => []
  | x :: xs => if p x then f x :: xs else x :: updateFirst p f xs

/-- The interaction comparator of `getOpportunityDetails` (line 595):
`new Date(b.interactionTime || b.createdTime) - new Date(a.interactionTime ||
a.createdTime)`; a NaN difference is treated as +0 by `SortCompare`. -/
def cmpInteractionDetailDesc (parse : String → Option Int) (a b : Interaction) : Int :=
  let keyOf := fun (i : Interaction) =>
    parse (if i.interactionTime ≠ "" then i.interactionTime else i.createdTime)
  match keyOf b, keyOf a with
  | some db, some da => db - da
  | _, _ => 0

/-- The event-log comparator of `getOpportunityDetails` (line 600):
`new Date(b.createdTime || 0) - new Date(a.createdTime || 0)`; a falsy
created time falls back to epoch 0, a NaN difference is treated as +0. -/
def cmpEventLogCreatedDesc (parse : String → Option Int) (a b : EventLog) : Int :=
  let keyOf := fun (e : EventLog) =>
    if e.createdTime = "" then some 0 else parse e.createdTime
  match keyOf b, keyOf a with
  | some db, some da => db - da
  | _, _ => 0

/-- Embedding of `OpportunityService.getOpportunityDetails`.  The modelled
link records carry only the canonical key of each `safeGet` alias chain
(`opportunityId`, `contactId`, `status`, `linkId`); `normalizeStr` is
`String(v).trim()` with absent values as the empty string. -/
def getOpportunityDetails (parse : String → Option Int) (opportunityId : String)
    (allOpportunities : List Opportunity) (interactionsFromCache : List Interaction)
    (eventLogsFromCache : List EventLog) (allLinks : List OppContactLink)
    (allOfficialContacts : List Contact) (allPotentialContacts : List PotentialContact) :
    Except String (OpportunityDetails × List Opportunity) :=
  match allOpportunities.find? (fun opp => opp.opportunityId == opportunityId) with
  | none => .error ("找不到機會ID為 " ++ opportunityId ++ " 的案件")
  | some opportunityInfo =>
    let linkedContactsFromCache :=
      (allLinks.filter (fun link =>
        let linkOppId := jsTrim link.opportunityId
        let statusVal := jsToLower (jsTrim link.status)
        linkOppId != "" && (statusVal == "" || statusVal == "active") &&
          linkOppId == jsTrim opportunityId)).filterMap
        (fun link =>
          let linkContactId := jsTrim link.contactId
          if linkContactId = "" then none
          else
            match allOfficialContacts.find? (fun c => jsTrim c.contactId == linkContactId) with
            | none => none
            | some contact => some { contact with linkId := link.linkId })
    let interactions :=
      List.insertionSort (fun a b => cmpInteractionDetailDesc parse a b ≤ 0)
        (interactionsFromCache.filter (fun i => i.opportunityId == opportunityId))
    let eventLogs :=
      List.insertionSort (fun a b => cmpEventLogCreatedDesc parse a b ≤ 0)
        (eventLogsFromCache.filter (fun log => log.opportunityId == opportunityId))
    let normalizedOppCompany := normalizeCompanyName opportunityInfo.customerCompany
    let potentialContacts := allPotentialContacts.filter (fun pc =>
      let normalizedPcCompany := normalizeCompanyName pc.company
      normalizedPcCompany != "" && normalizedOppCompany != "" &&
        normalizedPcCompany == normalizedOppCompany)
    let targetName := jsTrim opportunityInfo.mainContact
    let fromFallback :=
      match allPotentialContacts.find? (fun pc =>
          pc.name == targetName && normalizeCompanyName pc.company == normalizedOppCompany) with
      | some fallbackMatch => if fallbackMatch.position ≠ "" then fallbackMatch.position else ""
      | none => ""
    let fromPotential :=
      match potentialContacts.find? (fun pc => pc.name == targetName) with
      | some potentialMatch =>
        if potentialMatch.position ≠ "" then potentialMatch.position else fromFallback
      | none => fromFallback
    let mainContactJobTitle :=
      if targetName = "" then ""
      else
        match linkedContactsFromCache.find? (fun c => c.name == targetName) with
        | some linkedMatch =>
          if linkedMatch.position ≠ "" then linkedMatch.position else fromPotential
        | none => fromPotential
    let newOppCache :=
      updateFirst (fun opp => opp.opportunityId == opportunityId)
        (fun opp => { opp with mainContactJobTitle := mainContactJobTitle }) allOpportunities
    let mutatedInfo := { opportunityInfo with mainContactJobTitle := mainContactJobTitle }
    let parentOpportunity :=
      if mutatedInfo.parentOpportunityId ≠ "" then
        newOppCache.find? (fun opp => opp.opportunityId == mutatedInfo.parentOpportunityId)
      else none
    let childOpportunities := newOppCache.filter (fun opp => opp.parentOpportunityId == opportunityId)
    .ok
      ({ opportunityInfo := mutatedInfo
         interactions := interactions
         eventLogs := eventLogs
         linkedContacts := linkedContactsFromCache
         potentialContacts := potentialContacts
         parentOpportunity := parentOpportunity
         childOpportunities := childOpportunities }, newOppCache)

/-! ## Theorems -/

/-- General law of the shared pagination block: the envelope exposes the page
number, the filtered item count, a page total that is exactly the ceiling of
`totalItems / pageSize` (stated both via ceiling division and by its defining
bounds), the two navigation flags, and the page slice. -/
theorem paginateList_spec {α : Type} (results : List α) (page pageSize : Nat)
    (hpage : 1 ≤ page) (hP : 0 < pageSize) :
    (paginateList results page pageSize).pagination.current = page ∧
    (paginateList results page pageSize).pagination.totalItems = results.length ∧
    (paginateList results page pageSize).pagination.total = results.length ⌈/⌉ pageSize ∧
    results.length ≤ (paginateList results page pageSize).pagination.total * pageSize ∧
    (∀ m : Nat, results.length ≤ m * pageSize →
      (paginateList results page pageSize).pagination.total ≤ m) ∧
    ((paginateList results page pageSize).pagination.hasNext = true ↔
      page * pageSize < results.length) ∧
    ((paginateList results page pageSize).pagination.hasPrev = true ↔ 1 < page) ∧
    (paginateList results page pageSize).data =
      (results.drop ((page - 1) * pageSize)).take pageSize ∧
    (paginateList results page pageSize).data.length ≤ pageSize := by
  refine ⟨rfl, rfl, ?_, ?_, ?_, ?_, ?_, rfl, ?_⟩
  · simp [paginateList, jsCeilDiv, Nat.ceilDiv_eq_add_pred_div]
  · have h := le_smul_ceilDiv (α := ℕ) (β := ℕ) (b := results.length) hP
    rw [smul_eq_mul] at h
    calc results.length ≤ pageSize * (results.length ⌈/⌉ pageSize) := h
      _ = (results.length ⌈/⌉ pageSize) * pageSize := Nat.mul_comm _ _
      _ = (paginateList results page pageSize).pagination.total * pageSize := by
          simp [paginateList, jsCeilDiv, Nat.ceilDiv_eq_add_pred_div]
  · intro m hm
    have h : results.length ⌈/⌉ pageSize ≤ m := by
      rw [ceilDiv_le_iff_le_smul hP, smul_eq_mul]
      calc results.length ≤ m * pageSize := hm
        _ = pageSize * m := Nat.mul_comm _ _
    calc (paginateList results page pageSize).pagination.total
        = results.length ⌈/⌉ pageSize := by
          simp [paginateList, jsCeilDiv, Nat.ceilDiv_eq_add_pred_div]
      _ ≤ m := h
  · simp only [paginateList, decide_eq_true_eq]
    have h : (page - 1) * pageSize + pageSize = page * pageSize := by
      have : page - 1 + 1 = page := by omega
      calc (page - 1) * pageSize + pageSize = (page - 1 + 1) * pageSize := by ring
        _ = page * pageSize := by rw [this]
    rw [h]
  · simp [paginateList]
  · simp [paginateList]

/-- C1: a `READ_PREFERRED` fetch (weekly entries via `_fetchWeeklyEntries`
with `forceSheet = false`, official contacts via `searchOfficialContacts`)
whose federated reader raises or returns a non-sequence value returns the
authoritative sheet collection instead, deterministically, surfacing no error:
the weekly fetch returns exactly the sheet reader result, and the contact
search returns exactly the envelope it would compute if the federated store
had served the sheet collection; the federated result is used only when it is
a valid array. -/
theorem c1_read_preferred_falls_back_to_sheet
    (fedW : FedResult SqlRow) (stW : WeeklySheetState)
    (fedC : FedResult Contact) (q : String) (page : Nat)
    (sheetContacts : List Contact) (companies : List Company) (pageSize : Nat)
    (hW : fedW.invalid) (hC : fedC.invalid) :
    fetchWeeklyEntries false (some fedW) stW = weeklyReaderGetAllEntries stW ∧
    searchOfficialContacts q page fedC sheetContacts companies pageSize =
      searchOfficialContacts q page (.ok (.arr sheetContacts)) sheetContacts companies pageSize := by
  constructor
  · cases fedW with
    | err => rfl
    | ok v =>
      cases v with
      | arr xs => exact absurd hW (by simp [FedResult.invalid])
      | nonArray => rfl
  · cases fedC with
    | err => rfl
    | ok v =>
      cases v with
      | arr xs => exact absurd hC (by simp [FedResult.invalid])
      | nonArray => rfl

theorem c1_witness :
    (FedResult.invalid (α := SqlRow) .err ∧
      FedResult.invalid (α := Contact) (.ok .nonArray)) ∧
    (fetchWeeklyEntries false (some .err) ⟨[], false, []⟩ =
        weeklyReaderGetAllEntries ⟨[], false, []⟩ ∧
      searchOfficialContacts "" 1 (.ok .nonArray) [] [] 20 =
        searchOfficialContacts "" 1 (.ok (.arr [])) [] [] 20) :=
  ⟨⟨trivial, trivial⟩,
    c1_read_preferred_falls_back_to_sheet .err ⟨[], false, []⟩ (.ok .nonArray)
      "" 1 [] [] 20 trivial trivial⟩

/-- C5: for both paginated search envelopes (`searchOfficialContacts` and the
paginated branch of `searchInteractions`), with `N` the filtered item count
and `P` the page size: `totalItems = N`, `total` is the ceiling of `N / P`
(stated via ceiling division plus its defining bounds), `hasNext` holds iff
`current * P < N`, `hasPrev` holds iff `current > 1`, and `data` is the slice
of the filtered results starting at `(current - 1) * P` of length at most
`P`. -/
theorem c5_pagination_envelope_law
    (q : String) (page pageSize : Nat) (fed : FedResult Contact)
    (sheetContacts : List Contact) (companies : List Company)
    (parse : String → Option Int) (qI : String) (pageI pageSizeI : Nat)
    (interactions : List Interaction) (opportunities : List Opportunity)
    (companiesI : List Company)
    (hpage : 1 ≤ page) (hP : 0 < pageSize) (hpageI : 1 ≤ pageI) (hPI : 0 < pageSizeI) :
    (let env := searchOfficialContacts q page fed sheetContacts companies pageSize
     let filtered := officialContactsFiltered q fed sheetContacts companies
     env.pagination.current = page ∧
     env.pagination.totalItems = filtered.length ∧
     env.pagination.total = filtered.length ⌈/⌉ pageSize ∧
     filtered.length ≤ env.pagination.total * pageSize ∧
     (∀ m : Nat, filtered.length ≤ m * pageSize → env.pagination.total ≤ m) ∧
     (env.pagination.hasNext = true ↔ page * pageSize < filtered.length) ∧
     (env.pagination.hasPrev = true ↔ 1 < page) ∧
     env.data = (filtered.drop ((page - 1) * pageSize)).take pageSize ∧
     env.data.length ≤ pageSize) ∧
    (let filteredI := sortInteractionsDesc parse (filterInteractionsByQuery qI
        (joinInteractions interactions opportunities companiesI))
     let envI := searchInteractions parse qI pageI false interactions opportunities
        companiesI pageSizeI
     envI.pagination.current = pageI ∧
     envI.pagination.totalItems = filteredI.length ∧
     envI.pagination.total = filteredI.length ⌈/⌉ pageSizeI ∧
     filteredI.length ≤ envI.pagination.total * pageSizeI ∧
     (∀ m : Nat, filteredI.length ≤ m * pageSizeI → envI.pagination.total ≤ m) ∧
     (envI.pagination.hasNext = true ↔ pageI * pageSizeI < filteredI.length) ∧
     (envI.pagination.hasPrev = true ↔ 1 < pageI) ∧
     envI.data = (filteredI.drop ((pageI - 1) * pageSizeI)).take pageSizeI ∧
     envI.data.length ≤ pageSizeI) :=
  ⟨paginateList_spec (officialContactsFiltered q fed sheetContacts companies)
      page pageSize hpage hP,
    paginateList_spec (sortInteractionsDesc parse (filterInteractionsByQuery qI
        (joinInteractions interactions opportunities companiesI)))
      pageI pageSizeI hpageI hPI⟩

theorem c5_witness :
    ((1 : Nat) ≤ 1 ∧ (0 : Nat) < 20 ∧ (1 : Nat) ≤ 2 ∧ (0 : Nat) < 20) ∧
    ((let env := searchOfficialContacts "" 1 .err [] [] 20
      let filtered := officialContactsFiltered "" .err [] []
      env.pagination.current = 1 ∧
      env.pagination.totalItems = filtered.length ∧
      env.pagination.total = filtered.length ⌈/⌉ (20 : Nat) ∧
      filtered.length ≤ env.pagination.total * 20 ∧
      (∀ m : Nat, filtered.length ≤ m * 20 → env.pagination.total ≤ m) ∧
      (env.pagination.hasNext = true ↔ 1 * 20 < filtered.length) ∧
      (env.pagination.hasPrev = true ↔ 1 < 1) ∧
      env.data = (filtered.drop ((1 - 1) * 20)).take 20 ∧
      env.data.length ≤ 20) ∧
     (let filteredI := sortInteractionsDesc (fun _ => (none : Option Int))
        (filterInteractionsByQuery "" (joinInteractions [] [] []))
      let envI := searchInteractions (fun _ => (none : Option Int)) "" 2 false [] [] [] 20
      envI.pagination.current = 2 ∧
      envI.pagination.totalItems = filteredI.length ∧
      envI.pagination.total = filteredI.length ⌈/⌉ (20 : Nat) ∧
      filteredI.length ≤ envI.pagination.total * 20 ∧
      (∀ m : Nat, filteredI.length ≤ m * 20 → envI.pagination.total ≤ m) ∧
      (envI.pagination.hasNext = true ↔ 2 * 20 < filteredI.length) ∧
      (envI.pagination.hasPrev = true ↔ 1 < 2) ∧
      envI.data = (filteredI.drop ((2 - 1) * 20)).take 20 ∧
      envI.data.length ≤ 20)) :=
  ⟨⟨by decide, by decide, by decide, by decide⟩,
    c5_pagination_envelope_law "" 1 20 .err [] [] (fun _ => (none : Option Int)) "" 2 20 [] [] []
      (by decide) (by decide) (by decide) (by decide)⟩

/-- C3 counterexample: the normalizer strips only the Chinese corporate
suffixes 股份有限公司/有限公司/公司, not English suffix tokens, so the
claimed example fails: the two names keep their differing `co., ltd.` and
`co.` segments and normalize to different join keys. -/
theorem c3_counterexample :
    normalizeCompanyName "ABC Co., Ltd. (Taiwan)" ≠ normalizeCompanyName "abc co. (taiwan)" ∧
    normalizeCompanyName "ABC Co., Ltd. (Taiwan)" = "abc co., ltd." ∧
    normalizeCompanyName "abc co. (taiwan)" = "abc co." := by
  refine ⟨by decide, by decide, by decide⟩

/-- C3 (amended): the company-name normalizer maps two names that differ only
by letter case to the same join key (in general), and likewise identifies
names differing by surrounding whitespace, by the Chinese corporate-suffix
tokens 股份有限公司/有限公司/公司, or by parenthetical content (witnessed at
the spec-style inputs); English suffix tokens such as `Co., Ltd.` are not in
the stripped set. -/
theorem c3_normalizer_equivalence_amended :
    (∀ s t : String, s.data.map Char.toLower = t.data.map Char.toLower →
      normalizeCompanyName s = normalizeCompanyName t) ∧
    normalizeCompanyName "ABC股份有限公司 (Taiwan)" = normalizeCompanyName "  abc  " ∧
    normalizeCompanyName " 台達電有限公司 (Tainan) " = normalizeCompanyName "台達電" ∧
    normalizeCompanyName "Acme 公司 (Taipei)" = normalizeCompanyName "ACME" := by
  refine ⟨?_, by decide, by decide, by decide⟩
  intro s t h
  have hlen : s.data.length = t.data.length := by
    have hl := congrArg List.length h
    simpa using hl
  by_cases hs : s = ""
  · have hsd : s.data = [] := by rw [hs]
    have htd : t.data = [] := by
      rw [hsd] at hlen
      exact List.length_eq_zero.mp hlen.symm
    have ht : t = "" := by
      cases t with
      | mk d => simp only [String.data] at htd; rw [htd]
    rw [hs, ht]
  · have ht : t ≠ "" := by
      intro ht
      apply hs
      have htd : t.data = [] := by rw [ht]
      have hsd : s.data = [] := by
        rw [htd] at hlen
        exact List.length_eq_zero.mp hlen
      cases s with
      | mk d => simp only [String.data] at hsd; rw [hsd]
    simp only [normalizeCompanyName, if_neg hs, if_neg ht, h]

theorem c3_witness :
    ("ClouD".data.map Char.toLower = "cLOUd".data.map Char.toLower) ∧
    normalizeCompanyName "ClouD" = normalizeCompanyName "cLOUd" :=
  ⟨by decide, c3_normalizer_equivalence_amended.1 "ClouD" "cLOUd" (by decide)⟩

/-- The potential-contact comparator is total as a preorder: one of the two
orientations always compares at most zero. -/
theorem cmpPotentialCreatedDesc_total (parse : String → Option Int)
    (a b : PotentialContact) :
    cmpPotentialCreatedDesc parse a b ≤ 0 ∨ cmpPotentialCreatedDesc parse b a ≤ 0 := by
  cases hb : parse b.createdTime <;> cases ha : parse a.createdTime <;>
    simp only [cmpPotentialCreatedDesc, ha, hb] <;> omega

/-- The potential-contact comparator is transitive as a preorder. -/
theorem cmpPotentialCreatedDesc_trans (parse : String → Option Int)
    (a b c : PotentialContact)
    (hab : cmpPotentialCreatedDesc parse a b ≤ 0)
    (hbc : cmpPotentialCreatedDesc parse b c ≤ 0) :
    cmpPotentialCreatedDesc parse a c ≤ 0 := by
  cases hc : parse c.createdTime <;> cases hb : parse b.createdTime <;>
    cases ha : parse a.createdTime <;>
    simp only [cmpPotentialCreatedDesc, ha, hb, hc] at hab hbc ⊢ <;> omega

/-- The potential-contact sort output is sorted for its comparator preorder. -/
theorem sorted_sortPotentialDesc (parse : String → Option Int) (l : List PotentialContact) :
    List.Sorted (fun a b => cmpPotentialCreatedDesc parse a b ≤ 0) (sortPotentialDesc parse l) := by
  haveI : IsTotal PotentialContact (fun a b => cmpPotentialCreatedDesc parse a b ≤ 0) :=
    ⟨cmpPotentialCreatedDesc_total parse⟩
  haveI : IsTrans PotentialContact (fun a b => cmpPotentialCreatedDesc parse a b ≤ 0) :=
    ⟨cmpPotentialCreatedDesc_trans parse⟩
  exact List.sorted_insertionSort _ l

/-- The interaction comparator is total as a preorder. -/
theorem cmpInteractionTimeDesc_total (parse : String → Option Int)
    (a b : Interaction) :
    cmpInteractionTimeDesc parse a b ≤ 0 ∨ cmpInteractionTimeDesc parse b a ≤ 0 := by
  cases hb : parse b.interactionTime <;> cases ha : parse a.interactionTime <;>
    simp only [cmpInteractionTimeDesc, ha, hb] <;> omega

/-- The interaction comparator is transitive as a preorder. -/
theorem cmpInteractionTimeDesc_trans (parse : String → Option Int)
    (a b c : Interaction)
    (hab : cmpInteractionTimeDesc parse a b ≤ 0)
    (hbc : cmpInteractionTimeDesc parse b c ≤ 0) :
    cmpInteractionTimeDesc parse a c ≤ 0 := by
  cases hc : parse c.interactionTime <;> cases hb : parse b.interactionTime <;>
    cases ha : parse a.interactionTime <;>
    simp only [cmpInteractionTimeDesc, ha, hb, hc] at hab hbc ⊢ <;> omega

/-- The interaction sort output is sorted for its comparator preorder. -/
theorem sorted_sortInteractionsDesc (parse : String → Option Int) (l : List Interaction) :
    List.Sorted (fun a b => cmpInteractionTimeDesc parse a b ≤ 0) (sortInteractionsDesc parse l) := by
  haveI : IsTotal Interaction (fun a b => cmpInteractionTimeDesc parse a b ≤ 0) :=
    ⟨cmpInteractionTimeDesc_total parse⟩
  haveI : IsTrans Interaction (fun a b => cmpInteractionTimeDesc parse a b ≤ 0) :=
    ⟨cmpInteractionTimeDesc_trans parse⟩
  exact List.sorted_insertionSort _ l

/-- A concrete date parse for the spec test vectors: exactly one parseable
timestamp (host date parsing is environment behavior, abstracted as a
parameter everywhere else). -/
def exampleDateParse : String → Option Int :=
  fun s => if s = "2026-01-01T00:00:00Z" then some 1767225600000 else none

def potentialInvalidDate : PotentialContact :=
  { name := "1", company := "", notes := "", status := "", driveLink := "",
    position := "", createdTime := "not-a-date", rowIndex := 1 }

def potentialValidDate : PotentialContact :=
  { name := "2", company := "", notes := "", status := "", driveLink := "",
    position := "", createdTime := "2026-01-01T00:00:00Z", rowIndex := 2 }

def weeklyInvalidDate : WeeklyEntry :=
  { recordId := "1", weekId := "", entryDate := "not-a-date", dateKey := "not-a-date",
    category := "", topic := "", participants := "", summaryContent := "",
    todoItems := "", createdTime := "", updatedTime := "", creator := "",
    plan := "", division := "", rowIndex := 1 }

def weeklyValidDate : WeeklyEntry :=
  { recordId := "2", weekId := "", entryDate := "2026-01-01T00:00:00Z",
    dateKey := "2026-01-01T00:00:00Z", category := "", topic := "",
    participants := "", summaryContent := "", todoItems := "", createdTime := "",
    updatedTime := "", creator := "", plan := "", division := "", rowIndex := 2 }

/-- C6 counterexample: the weekly-entry date sort (`getEntriesForWeek`, line
137) has no invalid-date guard; for an unparseable date its comparator result
is NaN, which `SortCompare` treats as +0, so a stable sort leaves the record
in its original position: the descending sort of `[invalid, valid]` stays
`[invalid, valid]` instead of moving the unparseable record after the
parseable one as the claim requires. -/
theorem c6_counterexample :
    exampleDateParse weeklyInvalidDate.dateKey = none ∧
    (exampleDateParse weeklyValidDate.dateKey).isSome = true ∧
    sortWeeklyEntriesDesc exampleDateParse [weeklyInvalidDate, weeklyValidDate] =
      [weeklyInvalidDate, weeklyValidDate] := by
  refine ⟨by decide, by decide, by decide⟩

/-- C6 (amended): the potential-contact sort (by `createdTime`) and the
interaction sort (by `interactionTime`) deterministically order every record
whose date fails to parse after all records with parseable dates, without
raising, regardless of which side of the comparison the invalid record is on:
in the sorted output, once a record with an unparseable date appears, every
later record is unparseable too; on the spec test vector the sort of
`[invalid, valid]` is `[valid, invalid]`.  The weekly-entry sort does not
share this guard: its NaN-as-zero comparator leaves the invalid record in its
original position. -/
theorem c6_invalid_dates_sort_last_amended :
    (∀ (parse : String → Option Int) (l : List PotentialContact),
      (sortPotentialDesc parse l).Pairwise
        (fun x y => parse x.createdTime = none → parse y.createdTime = none)) ∧
    (∀ (parse : String → Option Int) (l : List Interaction),
      (sortInteractionsDesc parse l).Pairwise
        (fun x y => parse x.interactionTime = none → parse y.interactionTime = none)) ∧
    sortPotentialDesc exampleDateParse [potentialInvalidDate, potentialValidDate] =
      [potentialValidDate, potentialInvalidDate] ∧
    sortWeeklyEntriesDesc exampleDateParse [weeklyInvalidDate, weeklyValidDate] =
      [weeklyInvalidDate, weeklyValidDate] := by
  refine ⟨?_, ?_, by decide, by decide⟩
  · intro parse l
    refine (sorted_sortPotentialDesc parse l).imp ?_
    intro x y hxy hx
    cases hy : parse y.createdTime with
    | none => rfl
    | some dy => simp [cmpPotentialCreatedDesc, hx, hy] at hxy
  · intro parse l
    refine (sorted_sortInteractionsDesc parse l).imp ?_
    intro x y hxy hx
    cases hy : parse y.interactionTime with
    | none => rfl
    | some dy => simp [cmpInteractionTimeDesc, hx, hy] at hxy

theorem c6_witness :
    (sortPotentialDesc exampleDateParse [potentialInvalidDate, potentialValidDate]).Pairwise
      (fun x y => exampleDateParse x.createdTime = none →
        exampleDateParse y.createdTime = none) :=
  c6_invalid_dates_sort_last_amended.1 exampleDateParse
    [potentialInvalidDate, potentialValidDate]

/-- The multi-hop context-name resolution rule as the spec states it (a
refinement-side definition, to be compared with the pipeline): use the
opportunity name when the opportunity id resolves; otherwise the company name
when the company id resolves; otherwise an unknown-opportunity /
unknown-company placeholder when the corresponding id is present but its
target is missing; otherwise the not-specified sentinel. -/
def resolveContextName (oppId compId : String)
    (oppPairs compPairs : List (String × String)) : String :=
  if oppId != "" && (jsMapGet oppPairs oppId).isSome then
    (jsMapGet oppPairs oppId).getD ""
  else if compId != "" && (jsMapGet compPairs compId).isSome then
    (jsMapGet compPairs compId).getD ""
  else if oppId != "" then "未知機會"
  else if compId != "" then "未知公司"
  else "未指定"

/-- The interaction query filter only removes records. -/
theorem filterInteractionsByQuery_subset (q : String) (l : List Interaction) :
    filterInteractionsByQuery q l ⊆ l := by
  unfold filterInteractionsByQuery
  split
  · exact fun x hx => hx
  · exact fun x hx => List.mem_of_mem_filter hx

/-- C8: every interaction record in the output of `searchInteractions` carries
exactly the context name given by the sequential-resolution rule over the two
lookup maps, hence a dangling foreign id resolves to a placeholder (and the
total function raises no error). -/
theorem c8_context_name_resolution
    (parse : String → Option Int) (q : String) (page : Nat) (fetchAll : Bool)
    (interactions : List Interaction) (opportunities : List Opportunity)
    (companies : List Company) (pageSize : Nat) (r : Interaction)
    (hr : r ∈ (searchInteractions parse q page fetchAll interactions
        opportunities companies pageSize).data) :
    r.opportunityName = resolveContextName r.opportunityId r.companyId
      (opportunities.map (fun o => (o.opportunityId, o.opportunityName)))
      (companies.map (fun c => (c.companyId, c.companyName))) := by
  have hsorted : r ∈ sortInteractionsDesc parse (filterInteractionsByQuery q
      (joinInteractions interactions opportunities companies)) := by
    unfold searchInteractions at hr
    by_cases hf : fetchAll
    · simpa [hf] using hr
    · simp only [hf, if_false] at hr
      unfold paginateList at hr
      exact List.drop_subset _ _ (List.take_subset _ _ hr)
  have hfil : r ∈ filterInteractionsByQuery q
      (joinInteractions interactions opportunities companies) :=
    (List.mem_insertionSort _).mp hsorted
  have hmem : r ∈ joinInteractions interactions opportunities companies :=
    filterInteractionsByQuery_subset q _ hfil
  simp only [joinInteractions] at hmem
  rcases List.mem_map.mp hmem with ⟨item, hitem, rfl⟩
  rfl

def interactionDangling : Interaction :=
  { interactionId := "I1", opportunityId := "O9", companyId := "", eventType := "",
    eventTitle := "t", contentSummary := "", recorder := "", interactionTime := "",
    createdTime := "", opportunityName := "" }

theorem c8_witness :
    ({ interactionDangling with opportunityName := "未知機會" } ∈
      (searchInteractions exampleDateParse "" 1 true [interactionDangling]
        [] [] 20).data) ∧
    ({ interactionDangling with opportunityName := "未知機會" } : Interaction).opportunityName =
      resolveContextName "O9" "" [] [] :=
  ⟨by decide,
    c8_context_name_resolution exampleDateParse "" 1 true [interactionDangling]
      [] [] 20 { interactionDangling with opportunityName := "未知機會" } (by decide)⟩

/-- Assigning a fresh key on a JS object appends it. -/
theorem jsObjSet_of_fresh {β : Type} (m : List (String × β)) (k : String) (v : β)
    (h : ∀ p ∈ m, p.1 ≠ k) : jsObjSet m k v = m ++ [(k, v)] := by
  unfold jsObjSet
  have hany : m.any (fun p => p.1 == k) = false := by
    rw [List.any_eq_false]
    intro p hp
    simpa using h p hp
  rw [hany]
  simp

/-- With distinct configured stage values, initialization (starting from any
accumulator with disjoint keys) appends one empty group per stage in order. -/
theorem initStageGroups_go (stages : List StageDef) (m : List (String × StageGroup))
    (hdisj : ∀ st ∈ stages, ∀ p ∈ m, p.1 ≠ st.value)
    (hnd : (stages.map (fun st => st.value)).Nodup) :
    stages.foldl (fun m stage => jsObjSet m stage.value (initGroupOf stage)) m =
      m ++ stages.map (fun st => (st.value, initGroupOf st)) := by
  induction stages generalizing m with
  | nil => simp
  | cons st rest ih =>
    simp only [List.foldl_cons]
    rw [jsObjSet_of_fresh m st.value (initGroupOf st)
      (fun p hp => hdisj st (by simp) p hp)]
    rw [ih (m ++ [(st.value, initGroupOf st)]) ?_ ?_]
    · simp
    · intro st2 hst2 p hp
      rcases List.mem_append.mp hp with hp | hp
      · exact hdisj st2 (by simp [hst2]) p hp
      · have hp2 : p = (st.value, initGroupOf st) := by simpa using hp
        subst hp2
        simp only [List.map_cons, List.nodup_cons, List.mem_map] at hnd
        intro hcontra
        exact hnd.1 ⟨st2, hst2, hcontra.symm⟩
    · simp only [List.map_cons, List.nodup_cons] at hnd
      exact hnd.2

/-- With distinct configured stage values, initialization yields exactly one
empty group per stage, in configuration order. -/
theorem initStageGroups_eq (stages : List StageDef)
    (hnd : (stages.map (fun st => st.value)).Nodup) :
    initStageGroups stages = stages.map (fun st => (st.value, initGroupOf st)) := by
  unfold initStageGroups
  simpa using initStageGroups_go stages [] (by simp) hnd

/-- One classification step rewrites every entry whose key matches an
in-progress record, and leaves the object unchanged otherwise. -/
theorem classifyOppByStage_eq (m : List (String × StageGroup)) (o : Opportunity) :
    classifyOppByStage m o = m.map (fun p =>
      if o.currentStatus == "進行中" && p.1 == o.currentStage then
        (p.1, { p.2 with opportunities := p.2.opportunities ++ [o], count := p.2.count + 1 })
      else p) := by
  unfold classifyOppByStage
  cases hst : (o.currentStatus == "進行中") with
  | false =>
    simp only [hst, Bool.false_and, if_false, Bool.false_eq_true]
    have : (fun p : String × StageGroup => if False then
        (p.1, { p.2 with opportunities := p.2.opportunities ++ [o], count := p.2.count + 1 })
      else p) = fun p => p := by
      funext p
      simp
    simp
  | true =>
    simp only [hst, Bool.true_and, if_true]
    cases hany : m.any (fun p => p.1 == o.currentStage) with
    | false =>
      simp only [Bool.false_eq_true, if_false]
      have hnone := List.any_eq_false.mp hany
      symm
      calc m.map (fun p => if p.1 == o.currentStage then
            (p.1, { p.2 with opportunities := p.2.opportunities ++ [o], count := p.2.count + 1 })
          else p)
          = m.map (fun p => p) := by
            refine List.map_congr_left ?_
            intro p hp
            simp [hnone p hp]
        _ = m := List.map_id' m
    | true =>
      simp [hany]

/-- Running the classification loop extends every group by exactly the
in-progress opportunities whose stage equals the group key, in input order. -/
theorem foldl_classify_eq (opps : List Opportunity) (m : List (String × StageGroup)) :
    opps.foldl classifyOppByStage m = m.map (fun p =>
      (p.1,
        { p.2 with
          opportunities := p.2.opportunities ++
            opps.filter (fun o => o.currentStatus == "進行中" && p.1 == o.currentStage)
          count := p.2.count +
            (opps.filter (fun o => o.currentStatus == "進行中" && p.1 == o.currentStage)).length })) := by
  induction opps generalizing m with
  | nil =>
    simp only [List.foldl_nil, List.filter_nil, List.append_nil, List.length_nil,
      Nat.add_zero]
    exact (List.map_id' m).symm
  | cons o rest ih =>
    simp only [List.foldl_cons]
    rw [classifyOppByStage_eq, ih, List.map_map]
    refine List.map_congr_left ?_
    intro p _
    simp only [Function.comp_apply]
    cases hcond : (o.currentStatus == "進行中" && p.1 == o.currentStage) with
    | true =>
      simp only [if_true, List.filter_cons, hcond]
      simp [List.append_assoc]
      omega
    | false =>
      simp only [Bool.false_eq_true, if_false, List.filter_cons, hcond]

/-- C7: with distinct configured stage values, `getOpportunitiesByStage` emits
exactly one group per configured stage, in configuration order, whose members
are exactly the in-progress (進行中) opportunities with that stage key and
whose count equals the member-list length; a stage with no matching
opportunity is still present with an empty list and count 0 (its filter is
empty). -/
theorem c7_stage_aggregation (stages : List StageDef) (opps : List Opportunity)
    (hnd : (stages.map (fun st => st.value)).Nodup) :
    getOpportunitiesByStage stages opps = stages.map (fun st =>
      (st.value,
        { name := if st.note = "" then st.value else st.note
          opportunities :=
            opps.filter (fun o => o.currentStatus == "進行中" && st.value == o.currentStage)
          count :=
            (opps.filter (fun o => o.currentStatus == "進行中" && st.value == o.currentStage)).length })) ∧
    ∀ p ∈ getOpportunitiesByStage stages opps, p.2.count = p.2.opportunities.length := by
  have hmain : getOpportunitiesByStage stages opps = stages.map (fun st =>
      (st.value,
        { name := if st.note = "" then st.value else st.note
          opportunities :=
            opps.filter (fun o => o.currentStatus == "進行中" && st.value == o.currentStage)
          count :=
            (opps.filter (fun o => o.currentStatus == "進行中" && st.value == o.currentStage)).length })) := by
    unfold getOpportunitiesByStage
    rw [initStageGroups_eq stages hnd, foldl_classify_eq, List.map_map]
    refine List.map_congr_left ?_
    intro st _
    simp [initGroupOf]
  refine ⟨hmain, ?_⟩
  intro p hp
  rw [hmain] at hp
  rcases List.mem_map.mp hp with ⟨st, _, rfl⟩
  rfl

def stageClosedDef : StageDef := { value := "Closed", note := "" }

def oppInProgressOther : Opportunity :=
  { opportunityId := "O1", opportunityName := "N1", customerCompany := "",
    mainContact := "", parentOpportunityId := "", mainContactJobTitle := "",
    currentStage := "Open", currentStatus := "進行中", rowIndex := 2 }

theorem c7_witness :
    ([stageClosedDef].map (fun st => st.value)).Nodup ∧
    (getOpportunitiesByStage [stageClosedDef] [oppInProgressOther] =
      [("Closed", { name := "Closed", opportunities := [], count := 0 })] ∧
      ∀ p ∈ getOpportunitiesByStage [stageClosedDef] [oppInProgressOther],
        p.2.count = p.2.opportunities.length) := by
  refine ⟨by decide, ?_, ?_⟩
  · have h := (c7_stage_aggregation [stageClosedDef] [oppInProgressOther] (by decide)).1
    rw [h]
    decide
  · exact (c7_stage_aggregation [stageClosedDef] [oppInProgressOther] (by decide)).2

/-- C9: when the caller supplies a non-empty notes value,
`updatePotentialContact` writes a merged row whose notes are the existing
notes followed (after a newline, when the existing notes are non-empty) by
the new content prefixed with the generated bracketed author/date marker —
the existing notes are a prefix of the stored value, never discarded — while
every other caller-supplied field shallowly overwrites the corresponding
field of the existing record and unsupplied fields are preserved. -/
theorem c9_append_only_notes_merge (contacts : List PotentialContact)
    (rowIndex : Nat) (u : PotentialUpdate) (modifier today : String)
    (target : PotentialContact)
    (hfind : contacts.find? (fun c => c.rowIndex == rowIndex) = some target)
    (hnotes : u.notes.getD "" ≠ "") :
    ∃ merged, updatePotentialContact contacts rowIndex u modifier today = .ok merged ∧
      merged.notes =
        (if target.notes = "" then
          "[" ++ modifier ++ " " ++ today ++ "] " ++ u.notes.getD ""
        else
          target.notes ++ "\n" ++ ("[" ++ modifier ++ " " ++ today ++ "] " ++ u.notes.getD "")) ∧
      (∃ rest : String, merged.notes = target.notes ++ rest) ∧
      merged.name = u.name.getD target.name ∧
      merged.company = u.company.getD target.company ∧
      merged.status = u.status.getD target.status ∧
      merged.position = u.position.getD target.position ∧
      merged.driveLink = target.driveLink ∧
      merged.createdTime = target.createdTime ∧
      merged.rowIndex = target.rowIndex := by
  unfold updatePotentialContact
  rw [hfind]
  simp only [hnotes, ne_eq, not_false_eq_true, if_pos]
  refine ⟨_, rfl, ?_, ?_, rfl, rfl, rfl, rfl, rfl, rfl, rfl⟩
  · rfl
  · by_cases ht : target.notes = ""
    · refine ⟨"[" ++ modifier ++ " " ++ today ++ "] " ++ u.notes.getD "", ?_⟩
      simp [mergePotential, ht]
    · refine ⟨"\n" ++ ("[" ++ modifier ++ " " ++ today ++ "] " ++ u.notes.getD ""), ?_⟩
      simp [mergePotential, ht, String.append_assoc]

def potentialWithNotes : PotentialContact :=
  { name := "Ann", company := "Acme", notes := "old note", status := "Pending",
    driveLink := "", position := "", createdTime := "", rowIndex := 5 }

def potentialNotesUpdate : PotentialUpdate :=
  { name := none, company := none, notes := some "call back", status := some "Processed",
    position := none }

theorem c9_witness :
    ([potentialWithNotes].find? (fun c => c.rowIndex == 5) = some potentialWithNotes ∧
      potentialNotesUpdate.notes.getD "" ≠ "") ∧
    (∃ merged,
      updatePotentialContact [potentialWithNotes] 5 potentialNotesUpdate "Bob" "2026-02-01" = .ok merged ∧
      merged.notes =
        (if potentialWithNotes.notes = "" then
          "[" ++ "Bob" ++ " " ++ "2026-02-01" ++ "] " ++ potentialNotesUpdate.notes.getD ""
        else
          potentialWithNotes.notes ++ "\n" ++
            ("[" ++ "Bob" ++ " " ++ "2026-02-01" ++ "] " ++ potentialNotesUpdate.notes.getD "")) ∧
      (∃ rest : String, merged.notes = potentialWithNotes.notes ++ rest) ∧
      merged.name = potentialNotesUpdate.name.getD potentialWithNotes.name ∧
      merged.company = potentialNotesUpdate.company.getD potentialWithNotes.company ∧
      merged.status = potentialNotesUpdate.status.getD potentialWithNotes.status ∧
      merged.position = potentialNotesUpdate.position.getD potentialWithNotes.position ∧
      merged.driveLink = potentialWithNotes.driveLink ∧
      merged.createdTime = potentialWithNotes.createdTime ∧
      merged.rowIndex = potentialWithNotes.rowIndex) :=
  ⟨⟨by decide, by decide⟩,
    c9_append_only_notes_merge [potentialWithNotes] 5 potentialNotesUpdate
      "Bob" "2026-02-01" potentialWithNotes (by decide) (by decide)⟩

/-- C10: when the normalized name of a `createCompany` request matches an
existing company, the service returns success with `existed: true` and the
existing record, calls no Writer and performs no cache invalidation (the
company collection is untouched); a Writer create (with invalidation) happens
exactly when no normalized-name match exists, and a match exists iff the
duplicate scan finds one. -/
theorem c10_create_company_dedup (companies : List Company) (companyName : String)
    (companyData : CompanyData) (user : Option JsUser) :
    (∀ c, companies.find?
        (fun x => normalizeCompanyName x.companyName == normalizeCompanyName companyName) = some c →
      createCompany companies companyName companyData user =
        (.existedHit
          { success := true
            id := c.companyId
            name := c.companyName
            message := "公司已存在"
            existed := true
            data := some c }, false)) ∧
    (companies.find?
        (fun x => normalizeCompanyName x.companyName == normalizeCompanyName companyName) = none →
      createCompany companies companyName companyData user =
        (.writerCreate
          { companyData with companyName := some (companyData.companyName.getD companyName) }
          (modifierOf user), true)) ∧
    ((∃ c ∈ companies, normalizeCompanyName c.companyName = normalizeCompanyName companyName) ↔
      (companies.find?
        (fun x => normalizeCompanyName x.companyName == normalizeCompanyName companyName)).isSome) := by
  refine ⟨?_, ?_, ?_⟩
  · intro c hc
    simp only [createCompany]
    rw [hc]
  · intro hc
    simp only [createCompany]
    rw [hc]
  · rw [List.find?_isSome]
    constructor
    · rintro ⟨c, hc, hn⟩
      exact ⟨c, hc, by simpa using hn⟩
    · rintro ⟨c, hc, hn⟩
      exact ⟨c, hc, by simpa using hn⟩

def companyAcme : Company :=
  { companyId := "C1", companyName := "ACME股份有限公司", county := "", phone := "",
    address := "", introduction := "", companyType := "", customerStage := "",
    engagementRating := "", createdTime := "", rowIndex := 2 }

theorem c10_witness :
    ([companyAcme].find?
        (fun x => normalizeCompanyName x.companyName == normalizeCompanyName "Acme (Taipei)") =
      some companyAcme) ∧
    createCompany [companyAcme] "Acme (Taipei)"
        { companyName := none, county := none, phone := none, address := none,
          introduction := none, companyType := none } none =
      (.existedHit
        { success := true
          id := companyAcme.companyId
          name := companyAcme.companyName
          message := "公司已存在"
          existed := true
          data := some companyAcme }, false) :=
  ⟨by decide,
    (c10_create_company_dedup [companyAcme] "Acme (Taipei)"
      { companyName := none, county := none, phone := none, address := none,
        introduction := none, companyType := none } none).1 companyAcme (by decide)⟩

/-- Updating the row addressed by the found record rewrites exactly that
record under the id scan, provided row handles are distinct and the update
does not touch the logical id. -/
theorem find?_update_by_rowIndex (rows : List Contact) (contactId : String)
    (c : Contact) (u : ContactUpdate)
    (hfind : rows.find? (fun r => r.contactId == contactId) = some c)
    (hnd : (rows.map (fun r => r.rowIndex)).Nodup) :
    (rows.map (fun r => if r.rowIndex = c.rowIndex then applyContactUpdate r u else r)).find?
      (fun r => r.contactId == contactId) = some (applyContactUpdate c u) := by
  induction rows with
  | nil => simp at hfind
  | cons h t ih =>
    rw [List.map_cons, List.nodup_cons] at hnd
    by_cases hh : (h.contactId == contactId) = true
    · rw [List.find?_cons_of_pos (p := fun r : Contact => r.contactId == contactId) t hh] at hfind
      have hc : h = c := by injection hfind
      subst hc
      simp only [List.map_cons, if_pos rfl]
      exact List.find?_cons_of_pos (p := fun r : Contact => r.contactId == contactId) _ hh
    · rw [List.find?_cons_of_neg (p := fun r : Contact => r.contactId == contactId) t
        (by simpa using hh)] at hfind
      have hmem : c ∈ t := List.mem_of_find?_eq_some hfind
      have hne : ¬(h.rowIndex = c.rowIndex) := by
        intro heq
        exact hnd.1 (List.mem_map.mpr ⟨c, hmem, heq.symm⟩)
      simp only [List.map_cons, if_neg hne]
      rw [List.find?_cons_of_neg (p := fun r : Contact => r.contactId == contactId) _
        (by simpa using hh)]
      exact ih hfind hnd.2

/-- C2 (amended): the official-contact update invalidates the collection
cache synchronously before returning, and a subsequent fetch served from the
authoritative sheet path (the cache being stale, the reader reloads the rows)
reflects every caller-supplied field of the update; the weekly-entry update
performs no invalidation, and a `READ_PREFERRED` fetch served by the
federated store is not guaranteed to reflect the write (see the
counterexample). -/
theorem c2_read_after_write_amended (st : ContactsSheetState) (contactId : String)
    (u : ContactUpdate) (c : Contact)
    (hcoh : st.cacheValid = true → st.cache = st.rows)
    (hfind : st.rows.find? (fun r => r.contactId == contactId) = some c)
    (hrow : ¬(c.rowIndex = 0))
    (hnd : (st.rows.map (fun r => r.rowIndex)).Nodup) :
    ∃ st2, updateContact st contactId u = .ok st2 ∧
      st2.cacheValid = false ∧
      (contactReaderGetContactList st2).1 = st2.rows ∧
      st2.rows = st.rows.map
        (fun r => if r.rowIndex = c.rowIndex then applyContactUpdate r u else r) ∧
      st2.rows.find? (fun r => r.contactId == contactId) =
        some (applyContactUpdate c u) := by
  have h1 : (contactReaderGetContactList st).1 = st.rows := by
    unfold contactReaderGetContactList
    cases hcv : st.cacheValid with
    | true => simp [hcoh hcv]
    | false => simp
  have h2 : (contactReaderGetContactList st).2.rows = st.rows := by
    unfold contactReaderGetContactList
    cases hcv : st.cacheValid <;> simp
  refine ⟨contactReaderInvalidateCache
    (contactWriterUpdateContactRow (contactReaderGetContactList st).2 c.rowIndex u), ?_, rfl, ?_, ?_, ?_⟩
  · simp only [updateContact]
    rw [h1, hfind]
    simp only [if_neg hrow]
  · simp [contactReaderInvalidateCache, contactReaderGetContactList]
  · simp only [contactReaderInvalidateCache, contactWriterUpdateContactRow]
    rw [h2]
  · simp only [contactReaderInvalidateCache, contactWriterUpdateContactRow]
    rw [h2]
    exact find?_update_by_rowIndex st.rows contactId c u hfind hnd

def weeklyEntryOld : WeeklyEntry :=
  { recordId := "R1", weekId := "2026-W01", entryDate := "2026-01-01",
    dateKey := "2026-01-01", category := "", topic := "", participants := "",
    summaryContent := "old", todoItems := "", createdTime := "", updatedTime := "",
    creator := "", plan := "", division := "", rowIndex := 3 }

def weeklyStateBefore : WeeklySheetState :=
  { rows := [weeklyEntryOld], cacheValid := true, cache := [weeklyEntryOld] }

def weeklyUpdNew : WeeklyUpdate :=
  { date := none, category := none, topic := none, participants := none,
    summaryContent := some "new", todoItems := none, creator := none }

def contactOldDept : Contact :=
  { contactId := "CT1", sourceId := "", name := "Ann", companyId := "",
    department := "old", position := "", mobile := "", phone := "", email := "",
    companyName := "", linkId := "", rowIndex := 2 }

def contactsStateBefore : ContactsSheetState :=
  { rows := [contactOldDept], cacheValid := false, cache := [] }

def contactDeptUpd : ContactUpdate :=
  { name := none, companyId := none, department := some "new", position := none,
    mobile := none, phone := none, email := none }

/-- C2 counterexample: the claim fails on the code in two ways.  First, the
weekly-entry update performs no cache invalidation: after a successful
`updateWeeklyBusinessEntry` the sheet cache is still marked fresh and a
subsequent `READ_PREFERRED` fetch whose federated reader fails serves the
stale cached value, not the written one.  Second, even for contacts — whose
update does invalidate the sheet cache — a `READ_PREFERRED` fetch served by a
successfully responding federated store returns the federated rows, which the
sheet write never touched. -/
theorem c2_counterexample :
    (updateWeeklyBusinessEntry weeklyStateBefore "R1" weeklyUpdNew =
      .ok { rows := [applyWeeklyUpdate weeklyEntryOld weeklyUpdNew],
            cacheValid := true, cache := [weeklyEntryOld] } ∧
     (applyWeeklyUpdate weeklyEntryOld weeklyUpdNew).summaryContent = "new" ∧
     ((fetchWeeklyEntries false (some .err)
        { rows := [applyWeeklyUpdate weeklyEntryOld weeklyUpdNew],
          cacheValid := true, cache := [weeklyEntryOld] }).1.map
        (fun e => e.summaryContent)) = ["old"]) ∧
    (∃ st2, updateContact contactsStateBefore "CT1" contactDeptUpd = .ok st2 ∧
      st2.rows.map (fun r => r.department) = ["new"] ∧
      ((searchOfficialContacts "" 1 (.ok (.arr [contactOldDept])) st2.rows [] 20).data.map
        (fun r => r.department)) = ["old"]) := by
  refine ⟨⟨rfl, by decide, by decide⟩,
    ⟨{ rows := [applyContactUpdate contactOldDept contactDeptUpd],
       cacheValid := false, cache := [contactOldDept] }, rfl, by decide, by decide⟩⟩

theorem c2_witness :
    ((contactsStateBefore.cacheValid = true → contactsStateBefore.cache = contactsStateBefore.rows) ∧
      contactsStateBefore.rows.find? (fun r => r.contactId == "CT1") = some contactOldDept ∧
      ¬(contactOldDept.rowIndex = 0) ∧
      (contactsStateBefore.rows.map (fun r => r.rowIndex)).Nodup) ∧
    (∃ st2, updateContact contactsStateBefore "CT1" contactDeptUpd = .ok st2 ∧
      st2.cacheValid = false ∧
      (contactReaderGetContactList st2).1 = st2.rows ∧
      st2.rows = contactsStateBefore.rows.map
        (fun r => if r.rowIndex = contactOldDept.rowIndex then
          applyContactUpdate r contactDeptUpd else r) ∧
      st2.rows.find? (fun r => r.contactId == "CT1") =
        some (applyContactUpdate contactOldDept contactDeptUpd)) :=
  ⟨⟨by decide, by decide, by decide, by decide⟩,
    c2_read_after_write_amended contactsStateBefore "CT1" contactDeptUpd contactOldDept
      (by decide) (by decide) (by decide) (by decide)⟩

def oppForDetails : Opportunity :=
  { opportunityId := "O1", opportunityName := "Deal", customerCompany := "Acme",
    mainContact := "Alice", parentOpportunityId := "", mainContactJobTitle := "",
    currentStage := "S1", currentStatus := "進行中", rowIndex := 2 }

def potentialAlice : PotentialContact :=
  { name := "Alice", company := "Acme", notes := "", status := "", driveLink := "",
    position := "Manager", createdTime := "", rowIndex := 7 }

/-- C4: `getOpportunityDetails` violates the copy-before-mutate rule: the
resolved job title is assigned directly onto the opportunity record obtained
from the reader cache (`opportunityInfo.mainContactJobTitle = ...`, line 637)
with no shallow copy, so after the read the cached opportunity collection has
changed (cache pollution).  At this concrete input the cached record's
`mainContactJobTitle` flips from empty to `Manager` — contradicting the
claim, the comment discipline used elsewhere (`searchInteractions` clones
before attaching), and the spec's own rule that reads must not mutate cached
records. -/
theorem c4_cache_mutation_bug :
    (getOpportunityDetails exampleDateParse "O1" [oppForDetails] [] [] [] []
        [potentialAlice]).map (fun p => p.2) =
      .ok [{ oppForDetails with mainContactJobTitle := "Manager" }] ∧
    (getOpportunityDetails exampleDateParse "O1" [oppForDetails] [] [] [] []
        [potentialAlice]).map (fun p => p.2) ≠ .ok [oppForDetails] ∧
    oppForDetails.mainContactJobTitle = "" := by
  refine ⟨rfl, ?_, rfl⟩
  intro h
  have h2 : ({ oppForDetails with mainContactJobTitle := "Manager" } : Opportunity) =
      oppForDetails := by
    have h1 : (getOpportunityDetails exampleDateParse "O1" [oppForDetails] [] [] [] []
        [potentialAlice]).map (fun p => p.2) =
        .ok [{ oppForDetails with mainContactJobTitle := "Manager" }] := rfl
    rw [h1] at h
    injection h with h3
    injection h3 with h4
  have h5 : ({ oppForDetails with mainContactJobTitle := "Manager" } : Opportunity).mainContactJobTitle =
      oppForDetails.mainContactJobTitle := by rw [h2]
  exact absurd h5 (by decide)
